import Mathlib

/-!
Verification of the native-bridge / download-orchestrator service worker.
The definitions below are a shallow embedding of the worker-facing module:
its mutable state (connection handle, pending-call table, job table,
correlation counter), the message handlers, and an event-step machine over
them.  Theorems about call correlation, job-event routing, cancellation,
timeout policy and disconnect recovery follow the definitions.
-/

namespace Bridge

/-- Decidable equality for `Except`, used to evaluate handler results on
concrete inputs. -/
instance {ε α : Type} [DecidableEq ε] [DecidableEq α] :
    DecidableEq (Except ε α) := fun x y =>
  match x, y with
  | Except.ok a, Except.ok b =>
      if h : a = b then isTrue (h ▸ rfl)
      else isFalse (fun hh => h (Except.ok.inj hh))
  | Except.error a, Except.error b =>
      if h : a = b then isTrue (h ▸ rfl)
      else isFalse (fun hh => h (Except.error.inj hh))
  | Except.ok _, Except.error _ => isFalse (fun hh => Except.noConfusion hh)
  | Except.error _, Except.ok _ => isFalse (fun hh => Except.noConfusion hh)

/-- Association-list model of a JS `Map`: membership test (`Map.has`). -/
def mapHas {κ α : Type} [DecidableEq κ] (m : List (κ × α)) (k : κ) : Bool :=
  m.any (fun p => decide (p.1 = k))

/-- Association-list model of `Map.get`. -/
def mapGet {κ α : Type} [DecidableEq κ] (m : List (κ × α)) (k : κ) : Option α :=
  (m.find? (fun p => decide (p.1 = k))).map Prod.snd

/-- Association-list model of `Map.set`: replaces the value when the key is
present, appends a fresh binding otherwise. -/
def mapSet {κ α : Type} [DecidableEq κ] (m : List (κ × α)) (k : κ) (v : α) :
    List (κ × α) :=
  if mapHas m k then m.map (fun p => if p.1 = k then (k, v) else p)
  else m ++ [(k, v)]

/-- Association-list model of `Map.delete`. -/
def mapDelete {κ α : Type} [DecidableEq κ] (m : List (κ × α)) (k : κ) :
    List (κ × α) :=
  m.filter (fun p => decide (p.1 ≠ k))

/-- JS truthiness of an optional integer field (`0`, like `undefined`, is falsy). -/
def truthyNat : Option Nat → Bool
  | none => false
  | some n => decide (n ≠ 0)

/-- JS truthiness of an optional string field (the empty string is falsy). -/
def truthyStr : Option String → Bool
  | none => false
  | some s => decide (s ≠ "")

/-- An inbound message from the native host.  All fields are optional, as in
the untyped JS records the worker sends. -/
structure NativeMessage where
  id : Option Nat := none
  action : Option String := none
  downloadId : Option String := none
  error : Option String := none
  type : Option String := none
  progress : Option Nat := none
  filename : Option String := none
  ytdlpVersion : Option String := none
  ffmpegVersion : Option String := none
  path : Option String := none
deriving DecidableEq

/-- The action-specific payload spread into an outbound message
(`{ id, action, ...data }`). -/
structure MessageData where
  downloadId : Option String := none
  url : Option String := none
  format : Option String := none
  output : Option String := none
  extension : Option String := none
  subtitles : Option Bool := none
  audioOnly : Option Bool := none
  audioQuality : Option String := none
  title : Option String := none
  path : Option String := none
deriving DecidableEq

/-- A message written to the native port by `postMessage`. -/
structure OutboundMessage where
  id : Nat
  action : String
  data : MessageData
deriving DecidableEq

/-- The value stored in `pendingCallbacks`: in the source it is the
resolve/reject pair of the call promise; here the callback identity is the
correlation id itself and we record the action that created the call. -/
structure PendingCall where
  action : String
deriving DecidableEq

/-- The module-level mutable state of the service worker:
`nativePort`, `pendingCallbacks`, `downloadCallbacks`, `messageId`, plus
three observational components: the `setTimeout` timers currently scheduled
(id, delay), the log of messages written to the port, and a count of
`connectToNativeHost` invocations. -/
structure SWState where
  nativePort : Bool
  pendingCallbacks : List (Nat × PendingCall)
  downloadCallbacks : List (String × Bool)
  messageId : Nat
  timers : List (Nat × Nat)
  channelLog : List OutboundMessage
  connectAttempts : Nat
deriving DecidableEq

/-- The environment a state transition runs in: whether
`chrome.runtime.connectNative` succeeds, and whether `postMessage` throws
(`some e` is the thrown error message). -/
structure HostEnv where
  connectNativeOk : Bool
  postMessageError : Option String
deriving DecidableEq

/-- A resolution of a pending call promise: `resolve(message)` or
`reject(new Error(err))`, tagged with the correlation id of the call. -/
inductive CallResolution where
  | resolved (id : Nat) (message : NativeMessage)
  | rejected (id : Nat) (error : String)
deriving DecidableEq

/-- The correlation id a resolution belongs to. -/
def CallResolution.cid : CallResolution → Nat
  | resolved i _ => i
  | rejected i _ => i

/-- An observer notification emitted through the event sink
(`notifyDownloadProgress` / `notifyDownloadComplete` / `notifyDownloadError`,
plus the desktop notification shown when a download starts). -/
inductive JobNotice where
  | downloadProgress (downloadId : String) (progress : Option Nat)
  | downloadComplete (downloadId : String) (filename : Option String)
  | downloadError (downloadId : String) (error : Option String)
  | downloadStarted (title : Option String)
deriving DecidableEq

def NO_CONNECT_ERROR : String :=
  "Failed to connect to native host. Please check installation."

def DISCONNECT_CALL_ERROR : String := "Native host disconnected"

def CONNECTION_LOST_ERROR : String := "Native host connection lost"

def TIMEOUT_ERROR : String := "Request timed out"

def CALL_TIMEOUT_MS : Nat := 30000

/-- `connectToNativeHost`: drops any existing port, then tries
`chrome.runtime.connectNative`; returns `true` on success.  On failure the
port variable keeps its previous value. -/
def connectToNativeHost (env : HostEnv) (s : SWState) : SWState × Bool :=
  let s := { s with connectAttempts := s.connectAttempts + 1 }
  if env.connectNativeOk then ({ s with nativePort := true }, true)
  else (s, false)

/-- Outcome of the synchronous part of `sendNativeMessage`: the message was
posted and the promise is pending, or the promise was rejected before any
write (connection failure, or `postMessage` threw). -/
inductive SendOutcome where
  | posted (id : Nat)
  | rejectedNoConnect
  | rejectedPostError (id : Nat) (err : String)
deriving DecidableEq

/-- `sendNativeMessage`: ensures a port (connecting lazily), allocates the
next correlation id, stores the pending callback, schedules a 30000 ms
timeout for every action except `download`, then posts the message; if the
post throws, the fresh pending entry is deleted and the promise rejected
with the thrown error. -/
def sendNativeMessage (env : HostEnv) (s : SWState) (action : String)
    (data : MessageData) : SWState × SendOutcome :=
  let (s, ok) := if s.nativePort then (s, true) else connectToNativeHost env s
  if ok then
    let n := s.messageId + 1
    let s := { s with messageId := n,
                      pendingCallbacks := mapSet s.pendingCallbacks n ⟨action⟩ }
    let s := if action ≠ "download"
             then { s with timers := s.timers ++ [(n, CALL_TIMEOUT_MS)] }
             else s
    match env.postMessageError with
    | none =>
        ({ s with channelLog := s.channelLog ++ [⟨n, action, data⟩] },
         SendOutcome.posted n)
    | some e =>
        ({ s with pendingCallbacks := mapDelete s.pendingCallbacks n },
         SendOutcome.rejectedPostError n e)
  else (s, SendOutcome.rejectedNoConnect)

/-- The tail of `handleNativeMessage`: the three sequential job-event checks
(`progress`, `complete`, `error`).  Note that none of them consults
`downloadCallbacks` before notifying. -/
def handleJobEvents (s : SWState) (m : NativeMessage) :
    SWState × List CallResolution × List JobNotice :=
  let d := m.downloadId.getD ""
  let progressNotices :=
    if m.type = some "progress" ∧ truthyStr m.downloadId then
      [JobNotice.downloadProgress d m.progress]
    else []
  let s1 :=
    if m.type = some "complete" ∧ truthyStr m.downloadId then
      { s with downloadCallbacks := mapDelete s.downloadCallbacks d }
    else s
  let completeNotices :=
    if m.type = some "complete" ∧ truthyStr m.downloadId then
      [JobNotice.downloadComplete d m.filename]
    else []
  let s2 :=
    if m.type = some "error" ∧ truthyStr m.downloadId then
      { s1 with downloadCallbacks := mapDelete s1.downloadCallbacks d }
    else s1
  let errorNotices :=
    if m.type = some "error" ∧ truthyStr m.downloadId then
      [JobNotice.downloadError d m.error]
    else []
  (s2, [], progressNotices ++ completeNotices ++ errorNotices)

/-- `handleNativeMessage`: if the message carries a truthy `id` with a
pending callback, resolve or reject that call and return; otherwise fall
through to the job-event checks. -/
def handleNativeMessage (s : SWState) (m : NativeMessage) :
    SWState × List CallResolution × List JobNotice :=
  let i := m.id.getD 0
  if truthyNat m.id && mapHas s.pendingCallbacks i then
    let s := { s with pendingCallbacks := mapDelete s.pendingCallbacks i }
    if truthyStr m.error then
      (s, [CallResolution.rejected i (m.error.getD "")], [])
    else
      (s, [CallResolution.resolved i m], [])
  else handleJobEvents s m

/-- The `onDisconnect` listener: null the port, reject every pending
callback with `Native host disconnected`, clear the pending table, route an
error notification with `Native host connection lost` to every active
download, clear the job table. -/
def handleDisconnect (s : SWState) :
    SWState × List CallResolution × List JobNotice :=
  let rejections := s.pendingCallbacks.map
    (fun p => CallResolution.rejected p.1 DISCONNECT_CALL_ERROR)
  let notices := s.downloadCallbacks.map
    (fun p => JobNotice.downloadError p.1 (some CONNECTION_LOST_ERROR))
  ({ s with nativePort := false, pendingCallbacks := [],
            downloadCallbacks := [] },
   rejections, notices)

/-- The result record `handleTestConnection` returns. -/
structure TestConnectionResult where
  connected : Bool
  ytdlpVersion : Option String := none
  ffmpegVersion : Option String := none
  error : Option String := none
deriving DecidableEq

/-- `handleTestConnection`, as a function of the outcome of the awaited
`test` call: success is mapped to a positive record carrying the version
fields, any failure to a negative record carrying the error message.  The
function is total: no outcome makes it throw. -/
def handleTestConnection (outcome : Except String NativeMessage) :
    TestConnectionResult :=
  match outcome with
  | Except.ok response =>
      { connected := true, ytdlpVersion := response.ytdlpVersion,
        ffmpegVersion := response.ffmpegVersion }
  | Except.error e => { connected := false, error := some e }

/-- The request record `handleStartDownload` receives from the UI. -/
structure DownloadOptions where
  url : Option String := none
  format : Option String := none
  output : Option String := none
  extension : Option String := none
  subtitles : Option Bool := none
  audioOnly : Option Bool := none
  audioQuality : Option String := none
  title : Option String := none
deriving DecidableEq

/-- The download identifier generator:
`download_<Date.now()>_<random suffix>`. -/
def genDownloadId (now : Nat) (rand : String) : String :=
  "download_" ++ toString now ++ "_" ++ rand

/-- The payload `handleStartDownload` forwards to the host, verbatim from
the request: no field is validated. -/
def downloadData (downloadId : String) (options : DownloadOptions) :
    MessageData :=
  { downloadId := some downloadId, url := options.url,
    format := options.format, output := options.output,
    extension := options.extension, subtitles := options.subtitles,
    audioOnly := options.audioOnly, audioQuality := options.audioQuality,
    title := options.title }

/-- The `.catch` continuation attached to the fire-and-forget download call:
notify a download error and retire the job. -/
def startDownloadFailureHandler (s : SWState) (downloadId : String)
    (err : String) : SWState × List JobNotice :=
  ({ s with downloadCallbacks := mapDelete s.downloadCallbacks downloadId },
   [JobNotice.downloadError downloadId (some err)])

/-- What `handleStartDownload` produces: the new state, the returned
`downloadId`, and the notices emitted while it ran. -/
structure StartDownloadResult where
  state : SWState
  downloadId : String
  notices : List JobNotice
deriving DecidableEq

/-- `handleStartDownload`: generates a download id, registers it in
`downloadCallbacks`, issues the `download` call fire-and-forget (an
immediately-rejected call runs the `.catch` continuation), shows the
started notification, and returns `{ downloadId }` — on every path. -/
def handleStartDownload (env : HostEnv) (s : SWState)
    (options : DownloadOptions) (now : Nat) (rand : String) :
    StartDownloadResult :=
  let downloadId := genDownloadId now rand
  let s := { s with downloadCallbacks := mapSet s.downloadCallbacks downloadId true }
  match sendNativeMessage env s "download" (downloadData downloadId options) with
  | (s, SendOutcome.posted _) =>
      { state := s, downloadId := downloadId,
        notices := [JobNotice.downloadStarted options.title] }
  | (s, SendOutcome.rejectedNoConnect) =>
      { state := (startDownloadFailureHandler s downloadId NO_CONNECT_ERROR).1,
        downloadId := downloadId,
        notices := JobNotice.downloadStarted options.title ::
          (startDownloadFailureHandler s downloadId NO_CONNECT_ERROR).2 }
  | (s, SendOutcome.rejectedPostError _ e) =>
      { state := (startDownloadFailureHandler s downloadId e).1,
        downloadId := downloadId,
        notices := JobNotice.downloadStarted options.title ::
          (startDownloadFailureHandler s downloadId e).2 }

/-- `handleCancelDownload`, as a function of the outcome of the awaited
`cancel` call: on success it deletes the id from `downloadCallbacks` and
returns `{ success: true }`; on failure it rethrows, skipping the delete. -/
def handleCancelDownload (s : SWState) (downloadId : String)
    (outcome : Except String NativeMessage) : SWState × Except String Bool :=
  match outcome with
  | Except.ok _ =>
      ({ s with downloadCallbacks := mapDelete s.downloadCallbacks downloadId },
       Except.ok true)
  | Except.error e => (s, Except.error e)

/-- One discrete event on the single execution context: a caller issuing
`sendNativeMessage`, an inbound host message, a scheduled timeout firing,
or the port disconnecting. -/
inductive TraceEvent where
  | send (action : String) (data : MessageData) (env : HostEnv)
  | inbound (message : NativeMessage)
  | timerFire (i : Nat)
  | disconnect
deriving DecidableEq

/-- The step function of the event machine.  A `timerFire i` is possible
only for a currently scheduled timer; its body is the `setTimeout` callback,
which rejects the call with the timeout error only if the id is still
pending. -/
def step (s : SWState) (e : TraceEvent) :
    SWState × List CallResolution × List JobNotice :=
  match e with
  | TraceEvent.send action data env =>
      match sendNativeMessage env s action data with
      | (s, SendOutcome.posted _) => (s, [], [])
      | (s, SendOutcome.rejectedNoConnect) => (s, [], [])
      | (s, SendOutcome.rejectedPostError i err) =>
          (s, [CallResolution.rejected i err], [])
  | TraceEvent.inbound m => handleNativeMessage s m
  | TraceEvent.timerFire i =>
      if mapHas s.timers i then
        let s := { s with timers := mapDelete s.timers i }
        if mapHas s.pendingCallbacks i then
          ({ s with pendingCallbacks := mapDelete s.pendingCallbacks i },
           [CallResolution.rejected i TIMEOUT_ERROR], [])
        else (s, [], [])
      else (s, [], [])
  | TraceEvent.disconnect => handleDisconnect s

/-- Runs a list of events, accumulating call resolutions. -/
def runAux (s : SWState) (log : List CallResolution) :
    List TraceEvent → SWState × List CallResolution
  | [] => (s, log)
  | e :: rest =>
      let r := step s e
      runAux r.1 (log ++ r.2.1) rest

/-- The state of the module variables before any top-level code runs. -/
def initialState : SWState :=
  { nativePort := false, pendingCallbacks := [], downloadCallbacks := [],
    messageId := 0, timers := [], channelLog := [], connectAttempts := 0 }

/-- The module initialization: the top level ends with an eager
`connectToNativeHost()` call. -/
def moduleStartup (env : HostEnv) : SWState :=
  (connectToNativeHost env initialState).1

/-- The keep-alive interval callback: it only logs a count; it does not
touch the state and makes no connection attempt. -/
def keepAliveTick (s : SWState) : SWState := s

/-- Runs a trace of events from the state the module starts in. -/
def run (env0 : HostEnv) (events : List TraceEvent) :
    SWState × List CallResolution :=
  runAux (moduleStartup env0) [] events

/-- The invariant the event machine maintains between the state and the
accumulated resolution log: pending keys are distinct and bounded by the
correlation counter, resolved ids are distinct, bounded, and no longer
pending, timers are bounded, no `download` call has a timer, and every
successful resolution carries the message bearing its own id. -/
structure WF (s : SWState) (log : List CallResolution) : Prop where
  pendingNodup : (s.pendingCallbacks.map Prod.fst).Nodup
  pendingLe : ∀ p ∈ s.pendingCallbacks, p.1 ≤ s.messageId
  logLe : ∀ r ∈ log, r.cid ≤ s.messageId
  logNodup : (log.map CallResolution.cid).Nodup
  logNotPending : ∀ r ∈ log, mapHas s.pendingCallbacks r.cid = false
  timersLe : ∀ t ∈ s.timers, t.1 ≤ s.messageId
  downloadNoTimer : ∀ p ∈ s.pendingCallbacks,
    p.2.action = "download" → mapHas s.timers p.1 = false
  resolvedOwnId : ∀ i m, CallResolution.resolved i m ∈ log → m.id = some i

/-- A state with a live port and empty tables. -/
def stateConnected : SWState := { initialState with nativePort := true }

/-- A state with a live port and one active download job `J1`. -/
def stateWithJob : SWState :=
  { initialState with nativePort := true, downloadCallbacks := [("J1", true)] }

/-- A state with two pending calls and two active jobs. -/
def stateBusy : SWState :=
  { nativePort := true,
    pendingCallbacks := [(1, ⟨"test"⟩), (2, ⟨"selectDirectory"⟩)],
    downloadCallbacks := [("J1", true), ("J2", true)],
    messageId := 2, timers := [(1, CALL_TIMEOUT_MS), (2, CALL_TIMEOUT_MS)],
    channelLog := [], connectAttempts := 1 }

/-- An environment where connecting and posting both succeed. -/
def envOk : HostEnv := ⟨true, none⟩

/-- A small concrete trace: a `test` call, its response, a `download` call,
and a stray job event. -/
def demoTrace : List TraceEvent :=
  [TraceEvent.send "test" {} envOk,
   TraceEvent.inbound { id := some 1, ytdlpVersion := some "v" },
   TraceEvent.send "download" { url := some "u" } envOk,
   TraceEvent.inbound
     { type := some "progress", downloadId := some "J", progress := some 10 }]

/-! ### Lemmas about the association-list map operations -/

theorem mapHas_true_iff {κ α : Type} [DecidableEq κ] (m : List (κ × α)) (k : κ) :
    mapHas m k = true ↔ ∃ p ∈ m, p.1 = k := by
  simp [mapHas, List.any_eq_true]

theorem mapHas_false_iff {κ α : Type} [DecidableEq κ] (m : List (κ × α)) (k : κ) :
    mapHas m k = false ↔ ∀ p ∈ m, p.1 ≠ k := by
  rw [← Bool.not_eq_true, mapHas_true_iff]
  push_neg
  rfl

theorem mapDelete_of_has_false {κ α : Type} [DecidableEq κ] {m : List (κ × α)}
    {k : κ} (h : mapHas m k = false) : mapDelete m k = m := by
  rw [mapDelete, List.filter_eq_self]
  intro p hp
  simpa using (mapHas_false_iff m k).mp h p hp

theorem mem_of_mapDelete {κ α : Type} [DecidableEq κ] {m : List (κ × α)}
    {k : κ} {p : κ × α} (h : p ∈ mapDelete m k) : p ∈ m := by
  rw [mapDelete] at h
  exact List.mem_of_mem_filter h

theorem mapHas_mapDelete_self {κ α : Type} [DecidableEq κ] (m : List (κ × α))
    (k : κ) : mapHas (mapDelete m k) k = false := by
  rw [mapHas_false_iff]
  intro p hp
  rw [mapDelete, List.mem_filter] at hp
  simpa using hp.2

theorem mapHas_sub_mapDelete {κ α : Type} [DecidableEq κ] {m : List (κ × α)}
    {k k' : κ} (h : mapHas (mapDelete m k) k' = true) : mapHas m k' = true := by
  rw [mapHas_true_iff] at h ⊢
  obtain ⟨p, hp, hk⟩ := h
  exact ⟨p, mem_of_mapDelete hp, hk⟩

theorem mapHas_append {κ α : Type} [DecidableEq κ] (m m' : List (κ × α)) (k : κ) :
    mapHas (m ++ m') k = (mapHas m k || mapHas m' k) := by
  simp [mapHas]

theorem mapSet_of_has_false {κ α : Type} [DecidableEq κ] {m : List (κ × α)}
    {k : κ} (v : α) (h : mapHas m k = false) : mapSet m k v = m ++ [(k, v)] := by
  simp [mapSet, h]

theorem mapDelete_append {κ α : Type} [DecidableEq κ] (m m' : List (κ × α))
    (k : κ) : mapDelete (m ++ m') k = mapDelete m k ++ mapDelete m' k := by
  simp [mapDelete]

theorem mapDelete_mapSet_fresh {κ α : Type} [DecidableEq κ] {m : List (κ × α)}
    {k : κ} (v : α) (h : mapHas m k = false) :
    mapDelete (mapSet m k v) k = m := by
  rw [mapSet_of_has_false v h, mapDelete_append, mapDelete_of_has_false h]
  simp [mapDelete]

theorem mapHas_mapSet_self {κ α : Type} [DecidableEq κ] (m : List (κ × α))
    (k : κ) (v : α) : mapHas (mapSet m k v) k = true := by
  by_cases h : mapHas m k = true
  · rw [mapHas_true_iff]
    obtain ⟨p, hp, hk⟩ := (mapHas_true_iff m k).mp h
    refine ⟨(k, v), ?_, rfl⟩
    rw [mapSet, if_pos h]
    exact List.mem_map.mpr ⟨p, hp, by simp [hk]⟩
  · have h' : mapHas m k = false := by simpa using h
    rw [mapSet_of_has_false v h', mapHas_append]
    simp [mapHas]

theorem mapGet_cons {κ α : Type} [DecidableEq κ] (a : κ × α) (t : List (κ × α))
    (k : κ) : mapGet (a :: t) k = if a.1 = k then some a.2 else mapGet t k := by
  by_cases h : a.1 = k <;> simp [mapGet, List.find?, h]

theorem mapDelete_cons {κ α : Type} [DecidableEq κ] (a : κ × α)
    (t : List (κ × α)) (k : κ) :
    mapDelete (a :: t) k =
      if a.1 = k then mapDelete t k else a :: mapDelete t k := by
  by_cases h : a.1 = k <;> simp [mapDelete, h]

theorem mapGet_eq_none_of_has_false {κ α : Type} [DecidableEq κ]
    {m : List (κ × α)} {k : κ} (h : mapHas m k = false) : mapGet m k = none := by
  have hf : m.find? (fun p => decide (p.1 = k)) = none := by
    rw [List.find?_eq_none]
    intro x hx
    simpa using (mapHas_false_iff m k).mp h x hx
  simp [mapGet, hf]

theorem mem_of_mapGet_eq_some {κ α : Type} [DecidableEq κ] {m : List (κ × α)}
    {k : κ} {v : α} (h : mapGet m k = some v) : (k, v) ∈ m := by
  induction m with
  | nil => simp [mapGet] at h
  | cons a t ih =>
      rw [mapGet_cons] at h
      by_cases hak : a.1 = k
      · rw [if_pos hak] at h
        have hv : a.2 = v := by simpa using h
        have : a = (k, v) := by
          cases a
          simp only [Prod.mk.injEq]
          exact ⟨hak, hv⟩
        rw [← this]
        exact List.mem_cons_self a t
      · rw [if_neg hak] at h
        exact List.mem_cons_of_mem a (ih h)

theorem mapHas_of_mapGet_some {κ α : Type} [DecidableEq κ] {m : List (κ × α)}
    {k : κ} {v : α} (h : mapGet m k = some v) : mapHas m k = true :=
  (mapHas_true_iff m k).mpr ⟨(k, v), mem_of_mapGet_eq_some h, rfl⟩

theorem mapGet_mapDelete_ne {κ α : Type} [DecidableEq κ] (m : List (κ × α))
    (k k' : κ) (h : k' ≠ k) : mapGet (mapDelete m k) k' = mapGet m k' := by
  induction m with
  | nil => rfl
  | cons a t ih =>
      rw [mapDelete_cons]
      by_cases hak : a.1 = k
      · rw [if_pos hak, ih, mapGet_cons, if_neg ?_]
        rw [hak]
        exact Ne.symm h
      · rw [if_neg hak, mapGet_cons, mapGet_cons, ih]

theorem mapGet_append_some {κ α : Type} [DecidableEq κ] {m m' : List (κ × α)}
    {k : κ} {v : α} (h : mapGet m k = some v) :
    mapGet (m ++ m') k = some v := by
  induction m with
  | nil => simp [mapGet] at h
  | cons a t ih =>
      rw [List.cons_append, mapGet_cons] at *
      by_cases hak : a.1 = k
      · rwa [if_pos hak] at h ⊢
      · rw [if_neg hak] at h ⊢
        exact ih h

theorem truthyNat_eq_some {o : Option Nat} (h : truthyNat o = true) :
    o = some (o.getD 0) := by
  cases o with
  | none => simp [truthyNat] at h
  | some n => rfl

/-! ### Characterization of the handlers -/

theorem handleJobEvents_pendingCallbacks (s : SWState) (m : NativeMessage) :
    (handleJobEvents s m).1.pendingCallbacks = s.pendingCallbacks := by
  unfold handleJobEvents
  split <;> split <;> split <;> rfl

theorem handleJobEvents_resolutions (s : SWState) (m : NativeMessage) :
    (handleJobEvents s m).2.1 = [] := by
  unfold handleJobEvents
  split <;> split <;> split <;> rfl

theorem handleJobEvents_messageId (s : SWState) (m : NativeMessage) :
    (handleJobEvents s m).1.messageId = s.messageId := by
  unfold handleJobEvents
  split <;> split <;> split <;> rfl

theorem handleJobEvents_timers (s : SWState) (m : NativeMessage) :
    (handleJobEvents s m).1.timers = s.timers := by
  unfold handleJobEvents
  split <;> split <;> split <;> rfl

/-! ### Characterization of `sendNativeMessage` -/

theorem send_noconn (env : HostEnv) (s : SWState) (action : String)
    (data : MessageData) (hp : s.nativePort = false)
    (hc : env.connectNativeOk = false) :
    sendNativeMessage env s action data =
      ({ s with connectAttempts := s.connectAttempts + 1 },
       SendOutcome.rejectedNoConnect) := by
  simp [sendNativeMessage, connectToNativeHost, hp, hc]

theorem send_posted (env : HostEnv) (s : SWState) (action : String)
    (data : MessageData) (hconn : s.nativePort = true ∨ env.connectNativeOk = true)
    (hpe : env.postMessageError = none) :
    (sendNativeMessage env s action data).2 = SendOutcome.posted (s.messageId + 1) ∧
    (sendNativeMessage env s action data).1.pendingCallbacks
      = mapSet s.pendingCallbacks (s.messageId + 1) ⟨action⟩ ∧
    (sendNativeMessage env s action data).1.messageId = s.messageId + 1 ∧
    (sendNativeMessage env s action data).1.timers
      = (if action ≠ "download"
         then s.timers ++ [(s.messageId + 1, CALL_TIMEOUT_MS)] else s.timers) ∧
    (sendNativeMessage env s action data).1.downloadCallbacks = s.downloadCallbacks ∧
    (sendNativeMessage env s action data).1.channelLog
      = s.channelLog ++ [⟨s.messageId + 1, action, data⟩] := by
  by_cases hp : s.nativePort = true
  · refine ⟨?_, ?_, ?_, ?_, ?_, ?_⟩ <;>
      by_cases hdl : action = "download" <;>
        simp [sendNativeMessage, hp, hpe, hdl]
  · have hp' : s.nativePort = false := by simpa using hp
    have hc : env.connectNativeOk = true := hconn.resolve_left (by simp [hp'])
    refine ⟨?_, ?_, ?_, ?_, ?_, ?_⟩ <;>
      by_cases hdl : action = "download" <;>
        simp [sendNativeMessage, connectToNativeHost, hp', hc, hpe, hdl]

theorem send_postError (env : HostEnv) (s : SWState) (action : String)
    (data : MessageData) (e : String)
    (hconn : s.nativePort = true ∨ env.connectNativeOk = true)
    (hpe : env.postMessageError = some e) :
    (sendNativeMessage env s action data).2
      = SendOutcome.rejectedPostError (s.messageId + 1) e ∧
    (sendNativeMessage env s action data).1.pendingCallbacks
      = mapDelete (mapSet s.pendingCallbacks (s.messageId + 1) ⟨action⟩)
          (s.messageId + 1) ∧
    (sendNativeMessage env s action data).1.messageId = s.messageId + 1 ∧
    (sendNativeMessage env s action data).1.timers
      = (if action ≠ "download"
         then s.timers ++ [(s.messageId + 1, CALL_TIMEOUT_MS)] else s.timers) ∧
    (sendNativeMessage env s action data).1.downloadCallbacks = s.downloadCallbacks ∧
    (sendNativeMessage env s action data).1.channelLog = s.channelLog := by
  by_cases hp : s.nativePort = true
  · refine ⟨?_, ?_, ?_, ?_, ?_, ?_⟩ <;>
      by_cases hdl : action = "download" <;>
        simp [sendNativeMessage, hp, hpe, hdl]
  · have hp' : s.nativePort = false := by simpa using hp
    have hc : env.connectNativeOk = true := hconn.resolve_left (by simp [hp'])
    refine ⟨?_, ?_, ?_, ?_, ?_, ?_⟩ <;>
      by_cases hdl : action = "download" <;>
        simp [sendNativeMessage, connectToNativeHost, hp', hc, hpe, hdl]

theorem send_connectAttempts (env : HostEnv) (s : SWState) (action : String)
    (data : MessageData) :
    (sendNativeMessage env s action data).1.connectAttempts
      = (if s.nativePort then s.connectAttempts else s.connectAttempts + 1) := by
  by_cases hp : s.nativePort = true
  · cases hpe : env.postMessageError <;>
      by_cases hdl : action = "download" <;>
        simp [sendNativeMessage, hp, hpe, hdl]
  · have hp' : s.nativePort = false := by simpa using hp
    by_cases hc : env.connectNativeOk = true
    · cases hpe : env.postMessageError <;>
        by_cases hdl : action = "download" <;>
          simp [sendNativeMessage, connectToNativeHost, hp', hc, hpe, hdl]
    · have hc' : env.connectNativeOk = false := by simpa using hc
      simp [sendNativeMessage, connectToNativeHost, hp', hc']

/-! ### Characterization of `handleNativeMessage` -/

theorem handleNativeMessage_of_cond_false (s : SWState) (m : NativeMessage)
    (h : (truthyNat m.id && mapHas s.pendingCallbacks (m.id.getD 0)) = false) :
    handleNativeMessage s m = handleJobEvents s m := by
  unfold handleNativeMessage
  simp [h]

theorem handleJobEvents_progress (s : SWState) (m : NativeMessage) (d : String)
    (hd : m.downloadId = some d) (hne : d ≠ "")
    (ht : m.type = some "progress") :
    handleJobEvents s m = (s, [], [JobNotice.downloadProgress d m.progress]) := by
  unfold handleJobEvents
  simp [hd, ht, truthyStr, hne]

theorem handleJobEvents_complete (s : SWState) (m : NativeMessage) (d : String)
    (hd : m.downloadId = some d) (hne : d ≠ "")
    (ht : m.type = some "complete") :
    handleJobEvents s m =
      ({ s with downloadCallbacks := mapDelete s.downloadCallbacks d },
       [], [JobNotice.downloadComplete d m.filename]) := by
  unfold handleJobEvents
  simp [hd, ht, truthyStr, hne]

theorem handleJobEvents_error (s : SWState) (m : NativeMessage) (d : String)
    (hd : m.downloadId = some d) (hne : d ≠ "")
    (ht : m.type = some "error") :
    handleJobEvents s m =
      ({ s with downloadCallbacks := mapDelete s.downloadCallbacks d },
       [], [JobNotice.downloadError d m.error]) := by
  unfold handleJobEvents
  simp [hd, ht, truthyStr, hne]

/-! ### Claim C1 -/

/-- Claim C1, counterexample: a `progress` event for a download id that was
never registered (the job table is empty) is not silently dropped — the
handler emits an observer notification for it. -/
theorem late_progress_event_still_notifies :
    (handleNativeMessage initialState
        { type := some "progress", downloadId := some "J1",
          progress := some 50 }).2.2
      = [JobNotice.downloadProgress "J1" (some 50)] ∧
    (handleNativeMessage initialState
        { type := some "progress", downloadId := some "J1",
          progress := some 50 }).1 = initialState := by
  decide

/-- Claim C1 (amended): for every inbound job event whose `downloadId` is
not registered in the job table (and that does not match a pending call),
the handler still delivers the corresponding observer notification — the
job table is never consulted before notifying — while both the job table
and the pending-call table are left unchanged, so the event cannot
resurrect a job. -/
theorem unregistered_job_event_notifies_and_preserves_tables
    (s : SWState) (m : NativeMessage) (d k : String)
    (hid : truthyNat m.id = false ∨
      mapHas s.pendingCallbacks (m.id.getD 0) = false)
    (hd : m.downloadId = some d) (hne : d ≠ "")
    (hnot : mapHas s.downloadCallbacks d = false)
    (ht : m.type = some k)
    (hk : k = "progress" ∨ k = "complete" ∨ k = "error") :
    (handleNativeMessage s m).2.2 ≠ [] ∧
    (handleNativeMessage s m).1.downloadCallbacks = s.downloadCallbacks ∧
    (handleNativeMessage s m).1.pendingCallbacks = s.pendingCallbacks ∧
    (k = "progress" →
      (handleNativeMessage s m).2.2 = [JobNotice.downloadProgress d m.progress]) ∧
    (k = "complete" →
      (handleNativeMessage s m).2.2 = [JobNotice.downloadComplete d m.filename]) ∧
    (k = "error" →
      (handleNativeMessage s m).2.2 = [JobNotice.downloadError d m.error]) := by
  have hcond :
      (truthyNat m.id && mapHas s.pendingCallbacks (m.id.getD 0)) = false := by
    rcases hid with h | h <;> simp [h]
  rw [handleNativeMessage_of_cond_false s m hcond]
  rcases hk with rfl | rfl | rfl
  · rw [handleJobEvents_progress s m d hd hne ht]
    exact ⟨by simp, rfl, rfl, fun _ => rfl,
      fun h => absurd h (by decide), fun h => absurd h (by decide)⟩
  · rw [handleJobEvents_complete s m d hd hne ht]
    exact ⟨by simp, by simp [mapDelete_of_has_false hnot], rfl,
      fun h => absurd h (by decide), fun _ => rfl,
      fun h => absurd h (by decide)⟩
  · rw [handleJobEvents_error s m d hd hne ht]
    exact ⟨by simp, by simp [mapDelete_of_has_false hnot], rfl,
      fun h => absurd h (by decide), fun h => absurd h (by decide),
      fun _ => rfl⟩

/-- Claim C1, witness: the amended statement evaluated on a concrete late
`complete` event for an unregistered job. -/
theorem unregistered_job_event_witness :
    (handleNativeMessage stateConnected
        { type := some "complete", downloadId := some "J9",
          filename := some "video.mp4" }).2.2 ≠ [] ∧
    (handleNativeMessage stateConnected
        { type := some "complete", downloadId := some "J9",
          filename := some "video.mp4" }).1.downloadCallbacks
      = stateConnected.downloadCallbacks ∧
    (handleNativeMessage stateConnected
        { type := some "complete", downloadId := some "J9",
          filename := some "video.mp4" }).1.pendingCallbacks
      = stateConnected.pendingCallbacks :=
  ((unregistered_job_event_notifies_and_preserves_tables stateConnected
      { type := some "complete", downloadId := some "J9",
        filename := some "video.mp4" } "J9" "complete"
      (Or.inl (by decide)) rfl (by decide) (by decide) rfl
      (Or.inr (Or.inl rfl))).imp id (fun h => ⟨h.1, h.2.1⟩))

/-! ### Claim C2 -/

/-- Claim C2, counterexample: cancelling a job id that is not active does
not fail with an unknown-job error and does send over the channel: with an
empty job table, the cancel call posts a `cancel` message, enters the
pending-call table, and resolves with success once acknowledged. -/
theorem cancel_unknown_job_sends_on_channel :
    (sendNativeMessage envOk stateConnected "cancel"
        { downloadId := some "J1" }).1.channelLog
      = [⟨1, "cancel", { downloadId := some "J1" }⟩] ∧
    (sendNativeMessage envOk stateConnected "cancel"
        { downloadId := some "J1" }).2 = SendOutcome.posted 1 ∧
    (sendNativeMessage envOk stateConnected "cancel"
        { downloadId := some "J1" }).1.pendingCallbacks
      ≠ stateConnected.pendingCallbacks ∧
    (handleCancelDownload
        (sendNativeMessage envOk stateConnected "cancel"
          { downloadId := some "J1" }).1 "J1" (Except.ok {})).2
      = Except.ok true := by
  decide

/-- Claim C2 (amended): the cancel operation never consults the job table:
for an unknown job id (given a usable channel) it sends a `cancel` message
carrying that id over the channel like any other cancel, and when the
worker acknowledges it returns success; the deletion of the absent job
entry is a no-op, so the job table is unchanged.  No unknown-job error
exists in the code. -/
theorem cancel_unknown_job_no_check
    (s : SWState) (env : HostEnv) (d : String) (resp : NativeMessage)
    (hport : s.nativePort = true) (hpe : env.postMessageError = none)
    (hnot : mapHas s.downloadCallbacks d = false) :
    (sendNativeMessage env s "cancel" { downloadId := some d }).1.channelLog
      = s.channelLog ++ [⟨s.messageId + 1, "cancel", { downloadId := some d }⟩] ∧
    (sendNativeMessage env s "cancel" { downloadId := some d }).2
      = SendOutcome.posted (s.messageId + 1) ∧
    (handleCancelDownload
        (sendNativeMessage env s "cancel" { downloadId := some d }).1 d
        (Except.ok resp)).1.downloadCallbacks = s.downloadCallbacks ∧
    (handleCancelDownload
        (sendNativeMessage env s "cancel" { downloadId := some d }).1 d
        (Except.ok resp)).2 = Except.ok true := by
  obtain ⟨hout, hpend, hmid, htim, hdl, hlog⟩ :=
    send_posted env s "cancel" { downloadId := some d } (Or.inl hport) hpe
  refine ⟨hlog, hout, ?_, rfl⟩
  show mapDelete (sendNativeMessage env s "cancel"
      { downloadId := some d }).1.downloadCallbacks d = s.downloadCallbacks
  rw [hdl, mapDelete_of_has_false hnot]

/-- Claim C2, witness: the amended statement evaluated at a concrete state
with one (different) active job. -/
theorem cancel_unknown_job_no_check_witness :
    (sendNativeMessage envOk stateWithJob "cancel"
        { downloadId := some "GHOST" }).1.channelLog
      = stateWithJob.channelLog ++
        [⟨stateWithJob.messageId + 1, "cancel", { downloadId := some "GHOST" }⟩] ∧
    (sendNativeMessage envOk stateWithJob "cancel"
        { downloadId := some "GHOST" }).2
      = SendOutcome.posted (stateWithJob.messageId + 1) ∧
    (handleCancelDownload
        (sendNativeMessage envOk stateWithJob "cancel"
          { downloadId := some "GHOST" }).1 "GHOST"
        (Except.ok {})).1.downloadCallbacks = stateWithJob.downloadCallbacks ∧
    (handleCancelDownload
        (sendNativeMessage envOk stateWithJob "cancel"
          { downloadId := some "GHOST" }).1 "GHOST"
        (Except.ok {})).2 = Except.ok true :=
  cancel_unknown_job_no_check stateWithJob envOk "GHOST" {} rfl rfl (by decide)

/-! ### Claim C3 -/

/-- Claim C3, counterexample: when the cancel call fails (here: the worker
rejects it), the active job is NOT removed from the job table — the error
is rethrown and the delete line is skipped, so cancellation is not always
terminal locally. -/
theorem cancel_failure_keeps_job :
    (handleCancelDownload stateWithJob "J1"
        (Except.error "worker failure")).1.downloadCallbacks
      = [("J1", true)] ∧
    (handleCancelDownload stateWithJob "J1"
        (Except.error "worker failure")).2
      = Except.error "worker failure" := by
  decide

/-- Claim C3 (amended): the job id is removed from the job table exactly
when the underlying cancel call resolves successfully; on any failure of
that call the error propagates to the caller and the state (including the
job table) is completely unchanged. -/
theorem cancel_retires_job_only_on_success (s : SWState) (d : String)
    (outcome : Except String NativeMessage) :
    (∀ r, outcome = Except.ok r →
       mapHas (handleCancelDownload s d outcome).1.downloadCallbacks d = false ∧
       (handleCancelDownload s d outcome).2 = Except.ok true) ∧
    (∀ e, outcome = Except.error e →
       (handleCancelDownload s d outcome).1 = s ∧
       (handleCancelDownload s d outcome).2 = Except.error e) := by
  constructor
  · rintro r rfl
    exact ⟨mapHas_mapDelete_self _ _, rfl⟩
  · rintro e rfl
    exact ⟨rfl, rfl⟩

/-- Claim C3, witness: the amended statement evaluated on a successful
cancel of the concrete active job `J1`. -/
theorem cancel_retires_job_only_on_success_witness :
    mapHas (handleCancelDownload stateWithJob "J1"
        (Except.ok {})).1.downloadCallbacks "J1" = false ∧
    (handleCancelDownload stateWithJob "J1" (Except.ok {})).2
      = Except.ok true :=
  (cancel_retires_job_only_on_success stateWithJob "J1" (Except.ok {})).1 {} rfl

/-! ### Claim C8 -/

/-- Claim C8: `handleTestConnection` resolves normally for every outcome of
the underlying `test` call (it is a total function, so no outcome makes it
throw): success yields a positive record carrying the worker version
fields, any failure a negative record carrying the error message, and in
particular when the channel is absent and cannot be established the
underlying call rejects without sending and the result is negative. -/
theorem test_connection_never_throws (outcome : Except String NativeMessage) :
    (∀ r, outcome = Except.ok r →
       handleTestConnection outcome =
         { connected := true, ytdlpVersion := r.ytdlpVersion,
           ffmpegVersion := r.ffmpegVersion }) ∧
    (∀ e, outcome = Except.error e →
       handleTestConnection outcome = { connected := false, error := some e }) ∧
    (∀ (s : SWState) (env : HostEnv),
       s.nativePort = false → env.connectNativeOk = false →
       (sendNativeMessage env s "test" {}).2 = SendOutcome.rejectedNoConnect ∧
       handleTestConnection (Except.error NO_CONNECT_ERROR)
         = { connected := false, error := some NO_CONNECT_ERROR }) := by
  refine ⟨?_, ?_, ?_⟩
  · rintro r rfl
    rfl
  · rintro e rfl
    rfl
  · intro s env hp hc
    rw [send_noconn env s "test" {} hp hc]
    exact ⟨rfl, rfl⟩

/-- Claim C8, witness: both outcomes evaluated concretely. -/
theorem test_connection_never_throws_witness :
    handleTestConnection
        (Except.ok { ytdlpVersion := some "2024.1", ffmpegVersion := some "6.0" })
      = { connected := true, ytdlpVersion := some "2024.1",
          ffmpegVersion := some "6.0" } ∧
    handleTestConnection (Except.error "spawn failed")
      = { connected := false, error := some "spawn failed" } :=
  ⟨(test_connection_never_throws _).1 _ rfl,
   (test_connection_never_throws _).2.1 "spawn failed" rfl⟩

/-! ### Claim C9 -/

/-- Claim C9, counterexample: a connection attempt does occur at process
start — the module top level ends with an eager `connectToNativeHost()`
call, so the startup state records one attempt (and, when the host is
available, a live port) before any caller-initiated operation. -/
theorem startup_attempts_connection :
    (moduleStartup envOk).connectAttempts = 1 ∧
    (moduleStartup envOk).nativePort = true := by
  decide

/-- Claim C9 (amended): the module makes exactly one eager connection
attempt at process start; after that, attempts happen only inside
caller-initiated operations — an operation on a live port makes no new
attempt, an operation after a disconnect (port absent) makes exactly one —
and the keep-alive interval makes none (no background retry loop). -/
theorem connection_attempts_eager_startup_then_lazy (env : HostEnv) :
    (moduleStartup env).connectAttempts = 1 ∧
    (∀ (s : SWState) (e : HostEnv) (action : String) (data : MessageData),
       s.nativePort = true →
       (sendNativeMessage e s action data).1.connectAttempts
         = s.connectAttempts) ∧
    (∀ (s : SWState) (e : HostEnv) (action : String) (data : MessageData),
       s.nativePort = false →
       (sendNativeMessage e s action data).1.connectAttempts
         = s.connectAttempts + 1) ∧
    (∀ s : SWState, keepAliveTick s = s) := by
  refine ⟨?_, ?_, ?_, fun _ => rfl⟩
  · by_cases hc : env.connectNativeOk = true <;>
      simp [moduleStartup, connectToNativeHost, initialState, hc]
  · intro s e action data hp
    rw [send_connectAttempts, if_pos hp]
  · intro s e action data hp
    rw [send_connectAttempts, hp]
    rfl

/-- Claim C9, witness: the amended statement evaluated concretely — one
attempt at startup, none on a live-port operation, one on an operation
after disconnect. -/
theorem connection_attempts_witness :
    (moduleStartup envOk).connectAttempts = 1 ∧
    (sendNativeMessage envOk stateConnected "test" {}).1.connectAttempts
      = stateConnected.connectAttempts ∧
    (sendNativeMessage envOk initialState "test" {}).1.connectAttempts
      = initialState.connectAttempts + 1 :=
  ⟨(connection_attempts_eager_startup_then_lazy envOk).1,
   (connection_attempts_eager_startup_then_lazy envOk).2.1
     stateConnected envOk "test" {} rfl,
   (connection_attempts_eager_startup_then_lazy envOk).2.2.1
     initialState envOk "test" {} rfl⟩

/-! ### Claim C10 -/

/-- Claim C10: if `postMessage` throws while sending a one-shot call, the
call is rejected with exactly the thrown error and the freshly created
pending entry is removed, so the pending-call table (and the channel log)
after the failed call equal those before it. -/
theorem post_failure_rejects_and_cleans_pending
    (s : SWState) (env : HostEnv) (action : String) (data : MessageData)
    (e : String)
    (hkeys : ∀ p ∈ s.pendingCallbacks, p.1 ≤ s.messageId)
    (hport : s.nativePort = true)
    (hpe : env.postMessageError = some e) :
    (sendNativeMessage env s action data).1.pendingCallbacks
      = s.pendingCallbacks ∧
    (sendNativeMessage env s action data).2
      = SendOutcome.rejectedPostError (s.messageId + 1) e ∧
    (sendNativeMessage env s action data).1.channelLog = s.channelLog ∧
    (sendNativeMessage env s action data).1.downloadCallbacks
      = s.downloadCallbacks := by
  obtain ⟨hout, hpend, hmid, htim, hdl, hlog⟩ :=
    send_postError env s action data e (Or.inl hport) hpe
  have hfresh : mapHas s.pendingCallbacks (s.messageId + 1) = false := by
    rw [mapHas_false_iff]
    intro p hp
    have := hkeys p hp
    omega
  refine ⟨?_, hout, hlog, hdl⟩
  rw [hpend, mapDelete_mapSet_fresh _ hfresh]

/-- Claim C10, witness: a concrete failed post leaves the pending table as
it was. -/
theorem post_failure_witness :
    (sendNativeMessage ⟨true, some "EPIPE"⟩ stateConnected "test"
        {}).1.pendingCallbacks = stateConnected.pendingCallbacks ∧
    (sendNativeMessage ⟨true, some "EPIPE"⟩ stateConnected "test" {}).2
      = SendOutcome.rejectedPostError (stateConnected.messageId + 1) "EPIPE" ∧
    (sendNativeMessage ⟨true, some "EPIPE"⟩ stateConnected "test"
        {}).1.channelLog = stateConnected.channelLog ∧
    (sendNativeMessage ⟨true, some "EPIPE"⟩ stateConnected "test"
        {}).1.downloadCallbacks = stateConnected.downloadCallbacks :=
  post_failure_rejects_and_cleans_pending stateConnected ⟨true, some "EPIPE"⟩
    "test" {} "EPIPE" (by decide) rfl rfl

/-! ### Claim C4 -/

/-- `handleStartDownload` hands back the generated identifier on every
path. -/
theorem handleStartDownload_downloadId (env : HostEnv) (s : SWState)
    (options : DownloadOptions) (now : Nat) (rand : String) :
    (handleStartDownload env s options now rand).downloadId
      = genDownloadId now rand := by
  rcases hsend : sendNativeMessage env
      { s with downloadCallbacks :=
          mapSet s.downloadCallbacks (genDownloadId now rand) true }
      "download" (downloadData (genDownloadId now rand) options)
    with ⟨sc, out⟩
  cases out <;> simp [handleStartDownload, hsend]

/-- Claim C4, counterexample: a start request with no target resource
locator and no label (every field absent) is not rejected by any
validation — the job is registered, the unvalidated payload is forwarded
to the host, and the caller receives a download identifier. -/
theorem start_download_no_validation :
    (handleStartDownload envOk stateConnected {} 17 "abc").downloadId
      = "download_17_abc" ∧
    mapHas (handleStartDownload envOk stateConnected {} 17
        "abc").state.downloadCallbacks "download_17_abc" = true ∧
    (handleStartDownload envOk stateConnected {} 17 "abc").state.channelLog
      = [⟨1, "download", { downloadId := some "download_17_abc" }⟩] ∧
    (handleStartDownload envOk stateConnected {} 17 "abc").notices
      = [JobNotice.downloadStarted none] := by
  decide

/-- Claim C4 (amended): `startJob` performs no validation of the request —
for every options record (with or without a target resource locator or
label) it generates the identifier, registers it, and returns it, never
throwing (the function is total and yields the identifier on every path);
a failure of the fire-and-forget download call before the job's first
event is surfaced as a job error notification through the event sink and
retires the job, never as a thrown error. -/
theorem start_download_always_returns_id_and_routes_failures
    (env : HostEnv) (s : SWState) (options : DownloadOptions) (now : Nat)
    (rand : String) :
    (handleStartDownload env s options now rand).downloadId
      = genDownloadId now rand ∧
    (handleStartDownload env s options now rand).downloadId
      = (handleStartDownload env s {} now rand).downloadId ∧
    (s.nativePort = true → env.postMessageError = none →
       mapHas (handleStartDownload env s options now
           rand).state.downloadCallbacks (genDownloadId now rand) = true ∧
       (handleStartDownload env s options now rand).notices
         = [JobNotice.downloadStarted options.title]) ∧
    (∀ e, s.nativePort = true → env.postMessageError = some e →
       (handleStartDownload env s options now rand).notices
         = [JobNotice.downloadStarted options.title,
            JobNotice.downloadError (genDownloadId now rand) (some e)] ∧
       mapHas (handleStartDownload env s options now
           rand).state.downloadCallbacks (genDownloadId now rand) = false) ∧
    (s.nativePort = false → env.connectNativeOk = false →
       (handleStartDownload env s options now rand).notices
         = [JobNotice.downloadStarted options.title,
            JobNotice.downloadError (genDownloadId now rand)
              (some NO_CONNECT_ERROR)] ∧
       mapHas (handleStartDownload env s options now
           rand).state.downloadCallbacks (genDownloadId now rand) = false) ∧
    (∀ (s2 : SWState) (e : String),
       (startDownloadFailureHandler s2 (genDownloadId now rand) e).2
         = [JobNotice.downloadError (genDownloadId now rand) (some e)] ∧
       mapHas (startDownloadFailureHandler s2 (genDownloadId now
           rand) e).1.downloadCallbacks (genDownloadId now rand) = false) := by
  refine ⟨handleStartDownload_downloadId env s options now rand,
    by rw [handleStartDownload_downloadId, handleStartDownload_downloadId],
    ?_, ?_, ?_, ?_⟩
  · intro hp hpe
    rcases hsend : sendNativeMessage env
        { s with downloadCallbacks :=
            mapSet s.downloadCallbacks (genDownloadId now rand) true }
        "download" (downloadData (genDownloadId now rand) options)
      with ⟨sc, out⟩
    have hspec := send_posted env
      { s with downloadCallbacks :=
          mapSet s.downloadCallbacks (genDownloadId now rand) true }
      "download" (downloadData (genDownloadId now rand) options)
      (Or.inl hp) hpe
    rw [hsend] at hspec
    obtain ⟨hout, hpend, hmid, htim, hdl, hlog⟩ := hspec
    simp only at hout
    subst hout
    refine ⟨?_, by simp [handleStartDownload, hsend]⟩
    have hstate :
        (handleStartDownload env s options now rand).state.downloadCallbacks
          = sc.downloadCallbacks := by
      simp [handleStartDownload, hsend]
    rw [hstate, hdl]
    exact mapHas_mapSet_self _ _ _
  · intro e hp hpe
    rcases hsend : sendNativeMessage env
        { s with downloadCallbacks :=
            mapSet s.downloadCallbacks (genDownloadId now rand) true }
        "download" (downloadData (genDownloadId now rand) options)
      with ⟨sc, out⟩
    have hspec := send_postError env
      { s with downloadCallbacks :=
          mapSet s.downloadCallbacks (genDownloadId now rand) true }
      "download" (downloadData (genDownloadId now rand) options) e
      (Or.inl hp) hpe
    rw [hsend] at hspec
    obtain ⟨hout, hpend, hmid, htim, hdl, hlog⟩ := hspec
    simp only at hout
    subst hout
    refine ⟨by simp [handleStartDownload, hsend, startDownloadFailureHandler],
      ?_⟩
    have hstate :
        (handleStartDownload env s options now rand).state.downloadCallbacks
          = mapDelete sc.downloadCallbacks (genDownloadId now rand) := by
      simp [handleStartDownload, hsend, startDownloadFailureHandler]
    rw [hstate]
    exact mapHas_mapDelete_self _ _
  · intro hp hc
    have hsend := send_noconn env
      { s with downloadCallbacks :=
          mapSet s.downloadCallbacks (genDownloadId now rand) true }
      "download" (downloadData (genDownloadId now rand) options) hp hc
    refine ⟨by simp [handleStartDownload, hsend, startDownloadFailureHandler],
      ?_⟩
    have hstate :
        (handleStartDownload env s options now rand).state.downloadCallbacks
          = mapDelete (mapSet s.downloadCallbacks (genDownloadId now rand)
              true) (genDownloadId now rand) := by
      simp [handleStartDownload, hsend, startDownloadFailureHandler]
    rw [hstate]
    exact mapHas_mapDelete_self _ _
  · intro s2 e
    exact ⟨rfl, mapHas_mapDelete_self _ _⟩

/-- Claim C4, witness: a concrete successful start — the job is registered
and only the started notice is emitted. -/
theorem start_download_amended_witness :
    mapHas (handleStartDownload envOk stateConnected
        { url := some "https://example.test/w", title := some "T" } 3
        "r7").state.downloadCallbacks (genDownloadId 3 "r7") = true ∧
    (handleStartDownload envOk stateConnected
        { url := some "https://example.test/w", title := some "T" } 3
        "r7").notices = [JobNotice.downloadStarted (some "T")] :=
  (start_download_always_returns_id_and_routes_failures envOk stateConnected
      { url := some "https://example.test/w", title := some "T" } 3
      "r7").2.2.1 rfl rfl

/-! ### Claim C5 -/

/-- In a list of keyed entries with distinct keys, mapping an injective
function over the keys yields each image exactly once. -/
theorem count_map_key_of_nodup {α β γ : Type} [DecidableEq α] [DecidableEq γ]
    (f : α → γ) (hf : Function.Injective f) :
    ∀ (l : List (α × β)), (l.map Prod.fst).Nodup → ∀ p ∈ l,
      (l.map (fun q => f q.1)).count (f p.1) = 1 := by
  intro l
  induction l with
  | nil =>
      intro _ p hp
      cases hp
  | cons a t ih =>
      intro hnd p hp
      rw [List.map_cons] at hnd
      obtain ⟨hnotin, hnd'⟩ := List.nodup_cons.mp hnd
      rcases List.mem_cons.mp hp with rfl | hpt
      · have hzero : (t.map (fun q => f q.1)).count (f p.1) = 0 := by
          rw [List.count_eq_zero]
          intro hmem
          obtain ⟨q, hq, hfq⟩ := List.mem_map.mp hmem
          exact hnotin (List.mem_map.mpr ⟨q, hq, hf hfq⟩)
        rw [List.map_cons, List.count_cons_self, hzero]
      · have hne : f p.1 ≠ f a.1 := by
          intro heq
          exact hnotin ((hf heq) ▸ List.mem_map.mpr ⟨p, hpt, rfl⟩)
        rw [List.map_cons, List.count_cons_of_ne hne]
        exact ih hnd' p hpt

/-- Claim C5: on disconnect, every call pending at that moment is rejected
exactly once with the disconnect error, every job active at that moment
receives exactly one implicit error notification with the fixed
connection-lost reason (and nothing else is rejected or notified), and
afterwards the port is gone and both tables are empty. -/
theorem disconnect_fails_all_pending_and_jobs (s : SWState)
    (hp : (s.pendingCallbacks.map Prod.fst).Nodup)
    (hd : (s.downloadCallbacks.map Prod.fst).Nodup) :
    (handleDisconnect s).1.pendingCallbacks = [] ∧
    (handleDisconnect s).1.downloadCallbacks = [] ∧
    (handleDisconnect s).1.nativePort = false ∧
    (∀ p ∈ s.pendingCallbacks,
       (handleDisconnect s).2.1.count
         (CallResolution.rejected p.1 DISCONNECT_CALL_ERROR) = 1) ∧
    (∀ r ∈ (handleDisconnect s).2.1, ∃ p ∈ s.pendingCallbacks,
       r = CallResolution.rejected p.1 DISCONNECT_CALL_ERROR) ∧
    (∀ p ∈ s.downloadCallbacks,
       (handleDisconnect s).2.2.count
         (JobNotice.downloadError p.1 (some CONNECTION_LOST_ERROR)) = 1) ∧
    (∀ n ∈ (handleDisconnect s).2.2, ∃ p ∈ s.downloadCallbacks,
       n = JobNotice.downloadError p.1 (some CONNECTION_LOST_ERROR)) := by
  have hinjR :
      Function.Injective
        (fun i => CallResolution.rejected i DISCONNECT_CALL_ERROR) := by
    intro a b h
    simpa using h
  have hinjN :
      Function.Injective
        (fun d => JobNotice.downloadError d (some CONNECTION_LOST_ERROR)) := by
    intro a b h
    simpa using h
  refine ⟨rfl, rfl, rfl, ?_, ?_, ?_, ?_⟩
  · intro p hp'
    exact count_map_key_of_nodup _ hinjR s.pendingCallbacks hp p hp'
  · intro r hr
    obtain ⟨p, hp', rfl⟩ := List.mem_map.mp hr
    exact ⟨p, hp', rfl⟩
  · intro p hp'
    exact count_map_key_of_nodup _ hinjN s.downloadCallbacks hd p hp'
  · intro n hn
    obtain ⟨p, hp', rfl⟩ := List.mem_map.mp hn
    exact ⟨p, hp', rfl⟩

/-- Claim C5, witness: the disconnect behavior evaluated on a concrete
state with two pending calls and two active jobs. -/
theorem disconnect_witness :
    (handleDisconnect stateBusy).1.pendingCallbacks = [] ∧
    (handleDisconnect stateBusy).1.downloadCallbacks = [] ∧
    (handleDisconnect stateBusy).1.nativePort = false ∧
    (∀ p ∈ stateBusy.pendingCallbacks,
       (handleDisconnect stateBusy).2.1.count
         (CallResolution.rejected p.1 DISCONNECT_CALL_ERROR) = 1) ∧
    (∀ r ∈ (handleDisconnect stateBusy).2.1,
       ∃ p ∈ stateBusy.pendingCallbacks,
         r = CallResolution.rejected p.1 DISCONNECT_CALL_ERROR) ∧
    (∀ p ∈ stateBusy.downloadCallbacks,
       (handleDisconnect stateBusy).2.2.count
         (JobNotice.downloadError p.1 (some CONNECTION_LOST_ERROR)) = 1) ∧
    (∀ n ∈ (handleDisconnect stateBusy).2.2,
       ∃ p ∈ stateBusy.downloadCallbacks,
         n = JobNotice.downloadError p.1 (some CONNECTION_LOST_ERROR)) :=
  disconnect_fails_all_pending_and_jobs stateBusy (by decide) (by decide)

/-! ### The machine invariant and its preservation -/

theorem truthyNat_spec {o : Option Nat} (h : truthyNat o = true) :
    o = some (o.getD 0) ∧ o.getD 0 ≠ 0 := by
  cases o with
  | none => simp [truthyNat] at h
  | some n => exact ⟨rfl, by simpa [truthyNat] using h⟩

theorem handleNativeMessage_match_err (s : SWState) (m : NativeMessage)
    (i : Nat) (hid : m.id = some i) (h0 : i ≠ 0)
    (hhas : mapHas s.pendingCallbacks i = true)
    (herr : truthyStr m.error = true) :
    handleNativeMessage s m =
      ({ s with pendingCallbacks := mapDelete s.pendingCallbacks i },
       [CallResolution.rejected i (m.error.getD "")], []) := by
  unfold handleNativeMessage
  simp [hid, truthyNat, h0, hhas, herr]

theorem handleNativeMessage_match_ok (s : SWState) (m : NativeMessage)
    (i : Nat) (hid : m.id = some i) (h0 : i ≠ 0)
    (hhas : mapHas s.pendingCallbacks i = true)
    (herr : truthyStr m.error = false) :
    handleNativeMessage s m =
      ({ s with pendingCallbacks := mapDelete s.pendingCallbacks i },
       [CallResolution.resolved i m], []) := by
  unfold handleNativeMessage
  simp [hid, truthyNat, h0, hhas, herr]

theorem inbound_resolutions_match_id (s : SWState) (m : NativeMessage) :
    ∀ r ∈ (handleNativeMessage s m).2.1, m.id = some r.cid := by
  by_cases hcond :
      (truthyNat m.id && mapHas s.pendingCallbacks (m.id.getD 0)) = true
  · obtain ⟨htru, hhas⟩ := Bool.and_eq_true_iff.mp hcond
    obtain ⟨hid, h0⟩ := truthyNat_spec htru
    by_cases herr : truthyStr m.error = true
    · rw [handleNativeMessage_match_err s m _ hid h0 hhas herr]
      intro r hr
      rw [List.mem_singleton.mp hr]
      exact hid
    · have herr' : truthyStr m.error = false := by simpa using herr
      rw [handleNativeMessage_match_ok s m _ hid h0 hhas herr']
      intro r hr
      rw [List.mem_singleton.mp hr]
      exact hid
  · have hcond' :
        (truthyNat m.id && mapHas s.pendingCallbacks (m.id.getD 0)) = false := by
      simpa using hcond
    intro r hr
    rw [handleNativeMessage_of_cond_false s m hcond',
      handleJobEvents_resolutions] at hr
    cases hr

theorem inbound_unknown_id_noop (s : SWState) (m : NativeMessage) (i : Nat)
    (hid : m.id = some i) (hnot : mapHas s.pendingCallbacks i = false) :
    (handleNativeMessage s m).2.1 = [] ∧
    (handleNativeMessage s m).1.pendingCallbacks = s.pendingCallbacks := by
  have hcond :
      (truthyNat m.id && mapHas s.pendingCallbacks (m.id.getD 0)) = false := by
    rw [hid]
    simp [hnot]
  rw [handleNativeMessage_of_cond_false s m hcond]
  exact ⟨handleJobEvents_resolutions s m, handleJobEvents_pendingCallbacks s m⟩

theorem WF_stable (s s' : SWState) (log : List CallResolution) (h : WF s log)
    (hpend : s'.pendingCallbacks = s.pendingCallbacks)
    (hmid : s'.messageId = s.messageId)
    (htim : ∀ t ∈ s'.timers, t ∈ s.timers) : WF s' log := by
  refine ⟨?_, ?_, ?_, h.logNodup, ?_, ?_, ?_, h.resolvedOwnId⟩
  · rw [hpend]
    exact h.pendingNodup
  · intro p hp'
    rw [hmid]
    exact h.pendingLe p (hpend ▸ hp')
  · intro r hr
    rw [hmid]
    exact h.logLe r hr
  · intro r hr
    rw [hpend]
    exact h.logNotPending r hr
  · intro t ht'
    rw [hmid]
    exact h.timersLe t (htim t ht')
  · intro p hp' hdl
    cases hb : mapHas s'.timers p.1 with
    | false => rfl
    | true =>
        obtain ⟨t, ht', hk⟩ := (mapHas_true_iff _ _).mp hb
        have hs2 : mapHas s.timers p.1 = true :=
          (mapHas_true_iff _ _).mpr ⟨t, htim t ht', hk⟩
        have hf := h.downloadNoTimer p (hpend ▸ hp') hdl
        rw [hf] at hs2
        simp at hs2

theorem WF_resolveOne (s s' : SWState) (log : List CallResolution) (i : Nat)
    (r : CallResolution) (h : WF s log)
    (hhas : mapHas s.pendingCallbacks i = true) (hcid : r.cid = i)
    (hres : ∀ j m, r = CallResolution.resolved j m → m.id = some j)
    (hpend : s'.pendingCallbacks = mapDelete s.pendingCallbacks i)
    (hmid : s'.messageId = s.messageId)
    (htim : ∀ t ∈ s'.timers, t ∈ s.timers) :
    WF s' (log ++ [r]) := by
  have hile : i ≤ s.messageId := by
    obtain ⟨p, hp, hk⟩ := (mapHas_true_iff _ _).mp hhas
    exact hk ▸ h.pendingLe p hp
  refine ⟨?_, ?_, ?_, ?_, ?_, ?_, ?_, ?_⟩
  · rw [hpend, mapDelete]
    exact List.Nodup.sublist
      (List.Sublist.map _ (List.filter_sublist _)) h.pendingNodup
  · intro p hp'
    rw [hmid]
    exact h.pendingLe p (mem_of_mapDelete (hpend ▸ hp'))
  · intro r' hr'
    rw [hmid]
    rcases List.mem_append.mp hr' with hl | hrr
    · exact h.logLe r' hl
    · rw [List.mem_singleton.mp hrr, hcid]
      exact hile
  · rw [List.map_append, List.nodup_append]
    refine ⟨h.logNodup, by simp, ?_⟩
    intro a ha hb
    simp only [List.map_cons, List.map_nil, List.mem_singleton] at hb
    obtain ⟨r0, hr0, hcid0⟩ := List.mem_map.mp ha
    have hnp := h.logNotPending r0 hr0
    rw [hcid0, hb, hcid] at hnp
    rw [hnp] at hhas
    simp at hhas
  · intro r' hr'
    rw [hpend]
    rcases List.mem_append.mp hr' with hl | hrr
    · cases hb : mapHas (mapDelete s.pendingCallbacks i) r'.cid with
      | false => rfl
      | true =>
          have hsub := mapHas_sub_mapDelete hb
          have hf := h.logNotPending r' hl
          rw [hf] at hsub
          simp at hsub
    · rw [List.mem_singleton.mp hrr, hcid]
      exact mapHas_mapDelete_self _ _
  · intro t ht'
    rw [hmid]
    exact h.timersLe t (htim t ht')
  · intro p hp' hdl
    cases hb : mapHas s'.timers p.1 with
    | false => rfl
    | true =>
        obtain ⟨t, ht', hk⟩ := (mapHas_true_iff _ _).mp hb
        have hs2 : mapHas s.timers p.1 = true :=
          (mapHas_true_iff _ _).mpr ⟨t, htim t ht', hk⟩
        have hf := h.downloadNoTimer p (mem_of_mapDelete (hpend ▸ hp')) hdl
        rw [hf] at hs2
        simp at hs2
  · intro j m hjm
    rcases List.mem_append.mp hjm with hl | hrr
    · exact h.resolvedOwnId j m hl
    · exact hres j m (List.mem_singleton.mp hrr).symm

theorem WF_sendFresh (s s' : SWState) (log : List CallResolution)
    (action : String) (h : WF s log)
    (hpend : s'.pendingCallbacks
      = mapSet s.pendingCallbacks (s.messageId + 1) ⟨action⟩)
    (hmid : s'.messageId = s.messageId + 1)
    (htim : s'.timers = (if action ≠ "download"
      then s.timers ++ [(s.messageId + 1, CALL_TIMEOUT_MS)] else s.timers)) :
    WF s' log := by
  have hfresh : mapHas s.pendingCallbacks (s.messageId + 1) = false := by
    rw [mapHas_false_iff]
    intro p hp
    have := h.pendingLe p hp
    omega
  have hpend' : s'.pendingCallbacks
      = s.pendingCallbacks ++ [(s.messageId + 1, ⟨action⟩)] := by
    rw [hpend, mapSet_of_has_false _ hfresh]
  refine ⟨?_, ?_, ?_, h.logNodup, ?_, ?_, ?_, h.resolvedOwnId⟩
  · rw [hpend', List.map_append, List.nodup_append]
    refine ⟨h.pendingNodup, by simp, ?_⟩
    intro a ha hb
    simp only [List.map_cons, List.map_nil, List.mem_singleton] at hb
    obtain ⟨p, hp, hk⟩ := List.mem_map.mp ha
    have := h.pendingLe p hp
    rw [hk] at this
    omega
  · intro p hp'
    rw [hmid]
    rw [hpend'] at hp'
    rcases List.mem_append.mp hp' with hl | hrr
    · have := h.pendingLe p hl
      omega
    · rw [List.mem_singleton.mp hrr]
  · intro r hr
    rw [hmid]
    have := h.logLe r hr
    omega
  · intro r hr
    have h2 := h.logLe r hr
    rw [hpend', mapHas_append, h.logNotPending r hr]
    simp [mapHas]
    omega
  · intro t ht'
    rw [hmid]
    rw [htim] at ht'
    by_cases hdl : action = "download"
    · rw [if_neg (by simp [hdl])] at ht'
      have := h.timersLe t ht'
      omega
    · rw [if_pos (by simp [hdl])] at ht'
      rcases List.mem_append.mp ht' with hl | hrr
      · have := h.timersLe t hl
        omega
      · rw [List.mem_singleton.mp hrr]
  · intro p hp' hdl2
    rw [hpend'] at hp'
    rcases List.mem_append.mp hp' with hl | hrr
    · have hf := h.downloadNoTimer p hl hdl2
      rw [htim]
      by_cases hdl : action = "download"
      · rw [if_neg (by simp [hdl])]
        exact hf
      · rw [if_pos (by simp [hdl]), mapHas_append, hf]
        simp [mapHas]
        have := h.pendingLe p hl
        omega
    · have hpe := List.mem_singleton.mp hrr
      rw [hpe] at hdl2
      simp only at hdl2
      rw [htim, if_neg (by simp [hdl2]), hpe]
      rw [mapHas_false_iff]
      intro t ht2
      have := h.timersLe t ht2
      simp only
      omega

theorem WF_sendFreshFail (s s' : SWState) (log : List CallResolution)
    (action err : String) (h : WF s log)
    (hpend : s'.pendingCallbacks
      = mapDelete (mapSet s.pendingCallbacks (s.messageId + 1) ⟨action⟩)
          (s.messageId + 1))
    (hmid : s'.messageId = s.messageId + 1)
    (htim : s'.timers = (if action ≠ "download"
      then s.timers ++ [(s.messageId + 1, CALL_TIMEOUT_MS)] else s.timers)) :
    WF s' (log ++ [CallResolution.rejected (s.messageId + 1) err]) := by
  have hfresh : mapHas s.pendingCallbacks (s.messageId + 1) = false := by
    rw [mapHas_false_iff]
    intro p hp
    have := h.pendingLe p hp
    omega
  have hpend' : s'.pendingCallbacks = s.pendingCallbacks := by
    rw [hpend, mapDelete_mapSet_fresh _ hfresh]
  refine ⟨?_, ?_, ?_, ?_, ?_, ?_, ?_, ?_⟩
  · rw [hpend']
    exact h.pendingNodup
  · intro p hp'
    rw [hmid]
    rw [hpend'] at hp'
    have := h.pendingLe p hp'
    omega
  · intro r hr
    rw [hmid]
    rcases List.mem_append.mp hr with hl | hrr
    · have := h.logLe r hl
      omega
    · rw [List.mem_singleton.mp hrr]
      simp [CallResolution.cid]
  · rw [List.map_append, List.nodup_append]
    refine ⟨h.logNodup, by simp, ?_⟩
    intro a ha hb
    simp only [List.map_cons, List.map_nil, List.mem_singleton,
      CallResolution.cid] at hb
    obtain ⟨r0, hr0, hk⟩ := List.mem_map.mp ha
    have := h.logLe r0 hr0
    rw [hk] at this
    omega
  · intro r hr
    rw [hpend']
    rcases List.mem_append.mp hr with hl | hrr
    · exact h.logNotPending r hl
    · rw [List.mem_singleton.mp hrr]
      exact hfresh
  · intro t ht'
    rw [hmid]
    rw [htim] at ht'
    by_cases hdl : action = "download"
    · rw [if_neg (by simp [hdl])] at ht'
      have := h.timersLe t ht'
      omega
    · rw [if_pos (by simp [hdl])] at ht'
      rcases List.mem_append.mp ht' with hl | hrr
      · have := h.timersLe t hl
        omega
      · rw [List.mem_singleton.mp hrr]
  · intro p hp' hdl2
    rw [hpend'] at hp'
    have hf := h.downloadNoTimer p hp' hdl2
    rw [htim]
    by_cases hdl : action = "download"
    · rw [if_neg (by simp [hdl])]
      exact hf
    · rw [if_pos (by simp [hdl]), mapHas_append, hf]
      simp [mapHas]
      have := h.pendingLe p hp'
      omega
  · intro j m hjm
    rcases List.mem_append.mp hjm with hl | hrr
    · exact h.resolvedOwnId j m hl
    · have := List.mem_singleton.mp hrr
      simp at this

theorem WF_disconnect (s : SWState) (log : List CallResolution)
    (h : WF s log) :
    WF (handleDisconnect s).1 (log ++ (handleDisconnect s).2.1) := by
  have hrej : (handleDisconnect s).2.1 = s.pendingCallbacks.map
      (fun p => CallResolution.rejected p.1 DISCONNECT_CALL_ERROR) := rfl
  refine ⟨by simp [handleDisconnect], ?_, ?_, ?_, ?_, ?_, ?_, ?_⟩
  · intro p hp'
    simp [handleDisconnect] at hp'
  · intro r hr
    rcases List.mem_append.mp hr with hl | hrr
    · exact h.logLe r hl
    · rw [hrej] at hrr
      obtain ⟨p, hp', hpr⟩ := List.mem_map.mp hrr
      rw [← hpr]
      exact h.pendingLe p hp'
  · rw [List.map_append, List.nodup_append]
    refine ⟨h.logNodup, ?_, ?_⟩
    · rw [hrej, List.map_map]
      have hcomp : (CallResolution.cid ∘
          fun p => CallResolution.rejected p.1 DISCONNECT_CALL_ERROR)
          = fun p : Nat × PendingCall => p.1 := by
        funext p
        rfl
      rw [hcomp]
      exact h.pendingNodup
    · intro a ha hb
      rw [hrej, List.map_map] at hb
      obtain ⟨p, hp', hk⟩ := List.mem_map.mp hb
      obtain ⟨r0, hr0, hk0⟩ := List.mem_map.mp ha
      have hnp := h.logNotPending r0 hr0
      rw [mapHas_false_iff] at hnp
      refine hnp p hp' ?_
      have hk' : p.1 = a := hk
      rw [hk', hk0]
  · intro r hr
    rfl
  · intro t ht'
    exact h.timersLe t ht'
  · intro p hp' _
    simp [handleDisconnect] at hp'
  · intro j m hjm
    rcases List.mem_append.mp hjm with hl | hrr
    · exact h.resolvedOwnId j m hl
    · rw [hrej] at hrr
      obtain ⟨p, hp', hpr⟩ := List.mem_map.mp hrr
      simp at hpr

theorem step_WF (s : SWState) (log : List CallResolution) (e : TraceEvent)
    (h : WF s log) : WF (step s e).1 (log ++ (step s e).2.1) := by
  cases e with
  | send action data env =>
      by_cases hconn : s.nativePort = true ∨ env.connectNativeOk = true
      · cases hpe : env.postMessageError with
        | none =>
            obtain ⟨hout, hpend, hmid, htim, hdl, hlog⟩ :=
              send_posted env s action data hconn hpe
            rcases hsend : sendNativeMessage env s action data with ⟨sc, out⟩
            rw [hsend] at hout hpend hmid htim
            simp only at hout hpend hmid htim
            subst hout
            have hstep :
                step s (TraceEvent.send action data env) = (sc, [], []) := by
              simp [step, hsend]
            rw [hstep]
            simp only [List.append_nil]
            exact WF_sendFresh s sc log action h hpend hmid htim
        | some e2 =>
            obtain ⟨hout, hpend, hmid, htim, hdl, hlog⟩ :=
              send_postError env s action data e2 hconn hpe
            rcases hsend : sendNativeMessage env s action data with ⟨sc, out⟩
            rw [hsend] at hout hpend hmid htim
            simp only at hout hpend hmid htim
            subst hout
            have hstep : step s (TraceEvent.send action data env)
                = (sc, [CallResolution.rejected (s.messageId + 1) e2], []) := by
              simp [step, hsend]
            rw [hstep]
            exact WF_sendFreshFail s sc log action e2 h hpend hmid htim
      · push_neg at hconn
        have hp' : s.nativePort = false := by simpa using hconn.1
        have hc' : env.connectNativeOk = false := by simpa using hconn.2
        have hsend := send_noconn env s action data hp' hc'
        have hstep : step s (TraceEvent.send action data env)
            = ({ s with connectAttempts := s.connectAttempts + 1 }, [], []) := by
          simp [step, hsend]
        rw [hstep]
        simp only [List.append_nil]
        exact WF_stable s _ log h rfl rfl (fun t ht => ht)
  | inbound m =>
      have hstep : step s (TraceEvent.inbound m) = handleNativeMessage s m := rfl
      rw [hstep]
      by_cases hcond :
          (truthyNat m.id && mapHas s.pendingCallbacks (m.id.getD 0)) = true
      · obtain ⟨htru, hhas⟩ := Bool.and_eq_true_iff.mp hcond
        obtain ⟨hid, h0⟩ := truthyNat_spec htru
        by_cases herr : truthyStr m.error = true
        · rw [handleNativeMessage_match_err s m _ hid h0 hhas herr]
          exact WF_resolveOne s _ log (m.id.getD 0) _ h hhas rfl
            (by intro j mm hh; simp at hh) rfl rfl (fun t ht => ht)
        · have herr' : truthyStr m.error = false := by simpa using herr
          rw [handleNativeMessage_match_ok s m _ hid h0 hhas herr']
          refine WF_resolveOne s _ log (m.id.getD 0) _ h hhas rfl ?_ rfl rfl
            (fun t ht => ht)
          intro j mm hh
          injection hh with h1 h2
          rw [← h1, ← h2]
          exact hid
      · have hcond' :
            (truthyNat m.id && mapHas s.pendingCallbacks (m.id.getD 0))
              = false := by
          simpa using hcond
        rw [handleNativeMessage_of_cond_false s m hcond',
          handleJobEvents_resolutions, List.append_nil]
        exact WF_stable s _ log h (handleJobEvents_pendingCallbacks s m)
          (handleJobEvents_messageId s m)
          (fun t ht => (handleJobEvents_timers s m) ▸ ht)
  | timerFire i =>
      by_cases ht : mapHas s.timers i = true
      · by_cases hpend : mapHas s.pendingCallbacks i = true
        · have hstep : step s (TraceEvent.timerFire i) =
              ({ s with timers := mapDelete s.timers i,
                        pendingCallbacks := mapDelete s.pendingCallbacks i },
               [CallResolution.rejected i TIMEOUT_ERROR], []) := by
            simp [step, ht, hpend]
          rw [hstep]
          exact WF_resolveOne s _ log i _ h hpend rfl
            (by intro j mm hh; simp at hh) rfl rfl
            (fun t ht2 => mem_of_mapDelete ht2)
        · have hpend' : mapHas s.pendingCallbacks i = false := by
            simpa using hpend
          have hstep : step s (TraceEvent.timerFire i) =
              ({ s with timers := mapDelete s.timers i }, [], []) := by
            simp [step, ht, hpend']
          rw [hstep]
          simp only [List.append_nil]
          exact WF_stable s _ log h rfl rfl
            (fun t ht2 => mem_of_mapDelete ht2)
      · have ht' : mapHas s.timers i = false := by simpa using ht
        have hstep : step s (TraceEvent.timerFire i) = (s, [], []) := by
          simp [step, ht']
        rw [hstep]
        simp only [List.append_nil]
        exact WF_stable s _ log h rfl rfl (fun t ht2 => ht2)
  | disconnect =>
      exact WF_disconnect s log h

theorem runAux_WF : ∀ (events : List TraceEvent) (s : SWState)
    (log : List CallResolution), WF s log →
    WF (runAux s log events).1 (runAux s log events).2 := by
  intro events
  induction events with
  | nil =>
      intro s log h
      exact h
  | cons e rest ih =>
      intro s log h
      exact ih _ _ (step_WF s log e h)

theorem WF_initial (env0 : HostEnv) : WF (moduleStartup env0) [] := by
  by_cases hc : env0.connectNativeOk = true <;>
    refine ⟨?_, ?_, ?_, ?_, ?_, ?_, ?_, ?_⟩ <;>
      simp [moduleStartup, connectToNativeHost, initialState, hc]

theorem run_WF (env0 : HostEnv) (events : List TraceEvent) :
    WF (run env0 events).1 (run env0 events).2 :=
  runAux_WF events _ _ (WF_initial env0)

/-- When an inbound message matches a pending call, the handler removes
exactly that entry from the pending table. -/
theorem handleNativeMessage_match_pending (s : SWState) (m : NativeMessage)
    (hcond :
      (truthyNat m.id && mapHas s.pendingCallbacks (m.id.getD 0)) = true) :
    (handleNativeMessage s m).1.pendingCallbacks
      = mapDelete s.pendingCallbacks (m.id.getD 0) := by
  obtain ⟨htru, hhas⟩ := Bool.and_eq_true_iff.mp hcond
  obtain ⟨hid, h0⟩ := truthyNat_spec htru
  by_cases herr : truthyStr m.error = true
  · rw [handleNativeMessage_match_err s m _ hid h0 hhas herr]
  · have herr' : truthyStr m.error = false := by simpa using herr
    rw [handleNativeMessage_match_ok s m _ hid h0 hhas herr']

/-! ### Claim C6 -/

/-- Claim C6: over every trace of interleaved calls and inbound messages,
each call resolves at most once (the resolution log never repeats a
correlation id), a resolved entry is no longer pending, every successful
resolution carries the response bearing its own id, every resolution an
inbound message produces matches that message id (never another call),
and an inbound response whose id has no pending entry resolves nothing
and leaves the pending table unchanged. -/
theorem call_correlation_exactly_once (env0 : HostEnv)
    (events : List TraceEvent) :
    (((run env0 events).2.map CallResolution.cid).Nodup) ∧
    (∀ r ∈ (run env0 events).2,
       mapHas (run env0 events).1.pendingCallbacks r.cid = false) ∧
    (∀ i m, CallResolution.resolved i m ∈ (run env0 events).2 →
       m.id = some i) ∧
    (∀ m, ∀ r ∈ (step (run env0 events).1 (TraceEvent.inbound m)).2.1,
       m.id = some r.cid) ∧
    (∀ m i, m.id = some i →
       mapHas (run env0 events).1.pendingCallbacks i = false →
       (step (run env0 events).1 (TraceEvent.inbound m)).2.1 = [] ∧
       (step (run env0 events).1 (TraceEvent.inbound m)).1.pendingCallbacks
         = (run env0 events).1.pendingCallbacks) := by
  have hwf := run_WF env0 events
  refine ⟨hwf.logNodup, hwf.logNotPending, hwf.resolvedOwnId, ?_, ?_⟩
  · intro m r hr
    exact inbound_resolutions_match_id _ m r hr
  · intro m i hid hnot
    exact inbound_unknown_id_noop _ m i hid hnot

/-- Claim C6, witness: the trace properties evaluated on the concrete demo
trace. -/
theorem call_correlation_witness :
    ((run envOk demoTrace).2.map CallResolution.cid).Nodup ∧
    (∀ r ∈ (run envOk demoTrace).2,
       mapHas (run envOk demoTrace).1.pendingCallbacks r.cid = false) :=
  ⟨(call_correlation_exactly_once envOk demoTrace).1,
   (call_correlation_exactly_once envOk demoTrace).2.1⟩

/-! ### Claim C7 -/

/-- Claim C7: in every reachable state, a posted one-shot call whose action
is not `download` has a 30000 ms timer scheduled; when such a timer fires
while its call is still pending, the call is rejected with the timeout
error and its entry removed; a pending `download` call never has a timer
and survives every timer firing; and the only events that remove a pending
`download` entry are an inbound message carrying its id or a disconnect. -/
theorem timeout_policy_non_download_only (env0 : HostEnv)
    (events : List TraceEvent) :
    (∀ (env : HostEnv) (action : String) (data : MessageData) (n : Nat),
       action ≠ "download" →
       (sendNativeMessage env (run env0 events).1 action data).2
         = SendOutcome.posted n →
       (n, CALL_TIMEOUT_MS) ∈
         (sendNativeMessage env (run env0 events).1 action data).1.timers) ∧
    (∀ i, mapHas (run env0 events).1.timers i = true →
       mapHas (run env0 events).1.pendingCallbacks i = true →
       (step (run env0 events).1 (TraceEvent.timerFire i)).2.1
         = [CallResolution.rejected i TIMEOUT_ERROR] ∧
       mapHas (step (run env0 events).1
           (TraceEvent.timerFire i)).1.pendingCallbacks i = false) ∧
    (∀ i p, mapGet (run env0 events).1.pendingCallbacks i = some p →
       p.action = "download" →
       mapHas (run env0 events).1.timers i = false ∧
       (∀ j, mapGet (step (run env0 events).1
           (TraceEvent.timerFire j)).1.pendingCallbacks i = some p)) ∧
    (∀ (e : TraceEvent) (i : Nat) (p : PendingCall),
       mapGet (run env0 events).1.pendingCallbacks i = some p →
       p.action = "download" →
       mapGet (step (run env0 events).1 e).1.pendingCallbacks i = none →
       (∃ m, e = TraceEvent.inbound m ∧ m.id = some i)
         ∨ e = TraceEvent.disconnect) := by
  have hwf := run_WF env0 events
  have hfresh : mapHas (run env0 events).1.pendingCallbacks
      ((run env0 events).1.messageId + 1) = false := by
    rw [mapHas_false_iff]
    intro q hq
    have := hwf.pendingLe q hq
    omega
  refine ⟨?_, ?_, ?_, ?_⟩
  · intro env action data n hne hout
    by_cases hconn : (run env0 events).1.nativePort = true ∨
        env.connectNativeOk = true
    · cases hpe : env.postMessageError with
      | none =>
          obtain ⟨hout2, hpend, hmid, htim, hdl, hlog⟩ :=
            send_posted env (run env0 events).1 action data hconn hpe
          rw [hout2] at hout
          injection hout with hn
          rw [htim, if_pos hne, ← hn]
          exact List.mem_append_right _ (List.mem_singleton.mpr rfl)
      | some e2 =>
          obtain ⟨hout2, hpend, hmid, htim, hdl, hlog⟩ :=
            send_postError env (run env0 events).1 action data e2 hconn hpe
          rw [hout2] at hout
          cases hout
    · push_neg at hconn
      have hp' : (run env0 events).1.nativePort = false := by
        simpa using hconn.1
      have hc' : env.connectNativeOk = false := by simpa using hconn.2
      rw [send_noconn env (run env0 events).1 action data hp' hc'] at hout
      cases hout
  · intro i hti hpi
    have hstep : step (run env0 events).1 (TraceEvent.timerFire i) =
        ({ (run env0 events).1 with
            timers := mapDelete (run env0 events).1.timers i,
            pendingCallbacks :=
              mapDelete (run env0 events).1.pendingCallbacks i },
         [CallResolution.rejected i TIMEOUT_ERROR], []) := by
      simp [step, hti, hpi]
    rw [hstep]
    exact ⟨rfl, mapHas_mapDelete_self _ _⟩
  · intro i p hget hdl
    have hmem := mem_of_mapGet_eq_some hget
    have hnotimer := hwf.downloadNoTimer (i, p) hmem hdl
    refine ⟨hnotimer, ?_⟩
    intro j
    by_cases htj : mapHas (run env0 events).1.timers j = true
    · by_cases hpj : mapHas (run env0 events).1.pendingCallbacks j = true
      · have hstep : step (run env0 events).1 (TraceEvent.timerFire j) =
            ({ (run env0 events).1 with
                timers := mapDelete (run env0 events).1.timers j,
                pendingCallbacks :=
                  mapDelete (run env0 events).1.pendingCallbacks j },
             [CallResolution.rejected j TIMEOUT_ERROR], []) := by
          simp [step, htj, hpj]
        rw [hstep]
        have hij : i ≠ j := by
          intro hh
          rw [← hh] at htj
          rw [hnotimer] at htj
          simp at htj
        show mapGet (mapDelete (run env0 events).1.pendingCallbacks j) i
          = some p
        rw [mapGet_mapDelete_ne _ _ _ hij]
        exact hget
      · have hpj' : mapHas (run env0 events).1.pendingCallbacks j = false := by
          simpa using hpj
        have hstep : step (run env0 events).1 (TraceEvent.timerFire j) =
            ({ (run env0 events).1 with
                timers := mapDelete (run env0 events).1.timers j }, [], []) := by
          simp [step, htj, hpj']
        rw [hstep]
        exact hget
    · have htj' : mapHas (run env0 events).1.timers j = false := by
        simpa using htj
      have hstep : step (run env0 events).1 (TraceEvent.timerFire j)
          = ((run env0 events).1, [], []) := by
        simp [step, htj']
      rw [hstep]
      exact hget
  · intro e i p hget hdl hnone
    cases e with
    | send action data env =>
        exfalso
        by_cases hconn : (run env0 events).1.nativePort = true ∨
            env.connectNativeOk = true
        · cases hpe : env.postMessageError with
          | none =>
              obtain ⟨hout, hpend, hmid, htim, hdlc, hlog⟩ :=
                send_posted env (run env0 events).1 action data hconn hpe
              rcases hsend : sendNativeMessage env (run env0 events).1
                  action data with ⟨sc, out⟩
              rw [hsend] at hout hpend
              simp only at hout hpend
              subst hout
              have hstep : step (run env0 events).1
                  (TraceEvent.send action data env) = (sc, [], []) := by
                simp [step, hsend]
              rw [hstep] at hnone
              simp only at hnone
              rw [hpend, mapSet_of_has_false _ hfresh,
                mapGet_append_some hget] at hnone
              cases hnone
          | some e2 =>
              obtain ⟨hout, hpend, hmid, htim, hdlc, hlog⟩ :=
                send_postError env (run env0 events).1 action data e2 hconn hpe
              rcases hsend : sendNativeMessage env (run env0 events).1
                  action data with ⟨sc, out⟩
              rw [hsend] at hout hpend
              simp only at hout hpend
              subst hout
              have hstep : step (run env0 events).1
                  (TraceEvent.send action data env)
                  = (sc, [CallResolution.rejected
                      ((run env0 events).1.messageId + 1) e2], []) := by
                simp [step, hsend]
              rw [hstep] at hnone
              simp only at hnone
              rw [hpend, mapDelete_mapSet_fresh _ hfresh, hget] at hnone
              cases hnone
        · push_neg at hconn
          have hp' : (run env0 events).1.nativePort = false := by
            simpa using hconn.1
          have hc' : env.connectNativeOk = false := by simpa using hconn.2
          have hsend := send_noconn env (run env0 events).1 action data hp' hc'
          have hstep : step (run env0 events).1
              (TraceEvent.send action data env)
              = ({ (run env0 events).1 with
                    connectAttempts := (run env0 events).1.connectAttempts + 1 },
                 [], []) := by
            simp [step, hsend]
          rw [hstep] at hnone
          simp only at hnone
          rw [hget] at hnone
          cases hnone
    | inbound m =>
        by_cases hcond : (truthyNat m.id &&
            mapHas (run env0 events).1.pendingCallbacks (m.id.getD 0)) = true
        · obtain ⟨htru, hhas⟩ := Bool.and_eq_true_iff.mp hcond
          obtain ⟨hid, h0⟩ := truthyNat_spec htru
          have hstep : (step (run env0 events).1
              (TraceEvent.inbound m)).1.pendingCallbacks
              = mapDelete (run env0 events).1.pendingCallbacks
                  (m.id.getD 0) :=
            handleNativeMessage_match_pending _ m hcond
          rw [hstep] at hnone
          by_cases hij : i = m.id.getD 0
          · exact Or.inl ⟨m, rfl, hij ▸ hid⟩
          · rw [mapGet_mapDelete_ne _ _ _ hij, hget] at hnone
            cases hnone
        · exfalso
          have hcond' : (truthyNat m.id &&
              mapHas (run env0 events).1.pendingCallbacks (m.id.getD 0))
                = false := by
            simpa using hcond
          have hstep : (step (run env0 events).1
              (TraceEvent.inbound m)).1.pendingCallbacks
              = (run env0 events).1.pendingCallbacks := by
            show (handleNativeMessage (run env0 events).1 m).1.pendingCallbacks
              = (run env0 events).1.pendingCallbacks
            rw [handleNativeMessage_of_cond_false _ m hcond']
            exact handleJobEvents_pendingCallbacks _ m
          rw [hstep, hget] at hnone
          cases hnone
    | timerFire j =>
        exfalso
        have hmem := mem_of_mapGet_eq_some hget
        have hnotimer := hwf.downloadNoTimer (i, p) hmem hdl
        by_cases htj : mapHas (run env0 events).1.timers j = true
        · by_cases hpj : mapHas (run env0 events).1.pendingCallbacks j = true
          · have hstep : step (run env0 events).1 (TraceEvent.timerFire j) =
                ({ (run env0 events).1 with
                    timers := mapDelete (run env0 events).1.timers j,
                    pendingCallbacks :=
                      mapDelete (run env0 events).1.pendingCallbacks j },
                 [CallResolution.rejected j TIMEOUT_ERROR], []) := by
              simp [step, htj, hpj]
            rw [hstep] at hnone
            simp only at hnone
            have hij : i ≠ j := by
              intro hh
              rw [← hh] at htj
              rw [hnotimer] at htj
              simp at htj
            rw [mapGet_mapDelete_ne _ _ _ hij, hget] at hnone
            cases hnone
          · have hpj' : mapHas (run env0 events).1.pendingCallbacks j
                = false := by simpa using hpj
            have hstep : step (run env0 events).1 (TraceEvent.timerFire j) =
                ({ (run env0 events).1 with
                    timers := mapDelete (run env0 events).1.timers j },
                 [], []) := by
              simp [step, htj, hpj']
            rw [hstep] at hnone
            simp only at hnone
            rw [hget] at hnone
            cases hnone
        · have htj' : mapHas (run env0 events).1.timers j = false := by
            simpa using htj
          have hstep : step (run env0 events).1 (TraceEvent.timerFire j)
              = ((run env0 events).1, [], []) := by
            simp [step, htj']
          rw [hstep] at hnone
          simp only at hnone
          rw [hget] at hnone
          cases hnone
    | disconnect =>
        exact Or.inr rfl

/-- Claim C7, witness: after a concrete `test` call, its timer fires and
rejects exactly that call with the timeout error, removing the entry. -/
theorem timeout_policy_witness :
    (step (run envOk [TraceEvent.send "test" {} envOk]).1
        (TraceEvent.timerFire 1)).2.1
      = [CallResolution.rejected 1 TIMEOUT_ERROR] ∧
    mapHas (step (run envOk [TraceEvent.send "test" {} envOk]).1
        (TraceEvent.timerFire 1)).1.pendingCallbacks 1 = false :=
  (timeout_policy_non_download_only envOk
      [TraceEvent.send "test" {} envOk]).2.1 1 (by decide) (by decide)

end Bridge
